import Mathlib

/-
Verification of the Indexer repository (src/indexer.py) against its
natural-language specification.

The development shallowly embeds the program:
* `pretty_size` (indexer.py lines 278-303) together with a faithful model of
  Python's float true-division `int(f_bytes / factor)`;
* the description resolution (lines 238-244);
* the directory traversal `process_dir` (lines 83-274) as a state-passing
  function over a finite filesystem tree, with the mutable `content` dict
  threaded through recursive calls exactly as Python passes the shared dict.
-/

/-! ### Python string helpers -/

/-- Substring test on char lists: does the needle occur inside the haystack?
Models Python's `needle in haystack` for strings (line 105 and line 185). -/
def listContainsSub (needle : List Char) : List Char → Bool
  | [] => needle.isEmpty
  | c :: t => needle.isPrefixOf (c :: t) || listContainsSub needle t

/-- Python `needle in hay` (substring containment). -/
def strContains (hay needle : String) : Bool :=
  listContainsSub needle.toList hay.toList

/-- One left-to-right non-overlapping replacement pass over a char list.
The fuel is the haystack length; every step consumes at least one char. -/
def pyReplaceAux (old new : List Char) : Nat → List Char → List Char
  | _, [] => []
  | 0, s => s
  | f+1, c :: t =>
    if old.isPrefixOf (c :: t) then
      new ++ pyReplaceAux old new f (List.drop (old.length - 1) t)
    else
      c :: pyReplaceAux old new f t

/-- Python `s.replace(old, new)`: replaces every non-overlapping occurrence
left to right; an empty pattern inserts `new` around every character. -/
def pyReplace (s old new : String) : String :=
  if old == "" then
    String.mk (new.toList ++ s.toList.foldr (fun c acc => c :: (new.toList ++ acc)) [])
  else
    String.mk (pyReplaceAux old.toList new.toList s.length s.toList)

/-- ASCII lower-casing of one character; Python's `str.lower()` restricted to
ASCII, which covers every name compared by the script's tests. -/
def lowerChar (c : Char) : Char :=
  if 65 ≤ c.toNat ∧ c.toNat ≤ 90 then Char.ofNat (c.toNat + 32) else c

/-- Python `s.lower()` (ASCII model). -/
def pyLower (s : String) : String := String.mk (s.toList.map lowerChar)

/-- Python `s.startswith(p)`. -/
def strStartsWith (s p : String) : Bool := p.toList.isPrefixOf s.toList

/-- Split a char list at every `'/'`, keeping empty components, as
`str.split('/')` does. -/
def splitSlash : List Char → List (List Char)
  | [] => [[]]
  | c :: t =>
    match splitSlash t with
    | [] => [[]]
    | h :: r => if c == '/' then [] :: h :: r else (c :: h) :: r

/-- Python `s.lstrip(chars)` restricted to the double-quote character. -/
def pyLstripQuote (s : String) : String :=
  String.mk (s.toList.dropWhile (fun c => c == '"'))

/-- Python `s.strip(chars)` restricted to the double-quote character. -/
def pyStripQuote (s : String) : String :=
  String.mk (((s.toList.dropWhile (fun c => c == '"')).reverse.dropWhile
      (fun c => c == '"')).reverse)

/-! ### Model of Python float division, as used by `pretty_size`

`pretty_size` computes `int(f_bytes / factor)` where `/` is Python's float
true-division: the exact rational quotient is correctly rounded to an IEEE-754
double (53 significant bits, round half to even), and `int` truncates toward
zero.  Every `factor` in `UNITS_MAPPING` is a power of two, so dividing a
double by it is exact; hence `int(n / 2^k)` equals the truncation of
(round n to 53 significant bits) / 2^k.  The model below implements exactly
that; it is valid for inputs well inside the double range (far beyond any
value the theorems use). -/

/-- Number of binary digits of `n`; fuel 100 supports every input below
`2 ^ 100`, far above all inputs appearing in this development. -/
def bitlenAux : Nat → Nat → Nat
  | 0, _ => 0
  | f+1, n => if n = 0 then 0 else bitlenAux f (n / 2) + 1

def bitlen (n : Nat) : Nat := bitlenAux 100 n

/-- Round `n` (with `n ≥ 2 ^ 53`) to 53 significant bits, half to even:
the value of the IEEE-754 double nearest to the integer `n`. -/
def roundSig53 (n : Nat) : Nat :=
  let s := bitlen n - 53
  let q := n / 2 ^ s
  let r := n % 2 ^ s
  let h := 2 ^ (s - 1)
  let m := if h < r then q + 1 else if r < h then q else q + q % 2
  m * 2 ^ s

/-- Python `int(n / d)` for natural `n` and `d` a positive power of two:
below `2 ^ 53` the double quotient is exact and `int` truncates it; above,
`n` is first rounded to the nearest double. -/
def pyTruncDivNat (n d : Nat) : Nat :=
  if n < 2 ^ 53 then n / d else roundSig53 n / d

/-- Python `int(a / d)` for integer `a` and `d` a positive power of two:
float rounding and `int`-truncation are both symmetric in the sign. -/
def pyTruncDiv (a : Int) (d : Nat) : Int :=
  a.sign * (pyTruncDivNat a.natAbs d : Int)

/-! ### `pretty_size` (indexer.py lines 278-303) -/

/-- A unit suffix: either a plain string or a (singular, plural) pair,
modelling the `str` vs `tuple` distinction checked by `isinstance`. -/
inductive Suffix where
  | single (s : String)
  | pair (sing mult : String)
deriving DecidableEq

/-- The table `UNITS_MAPPING` (lines 278-285). -/
def UNITS_MAPPING : List (Nat × Suffix) :=
  [(1024 ^ 5, Suffix.single " PB"),
   (1024 ^ 4, Suffix.single " TB"),
   (1024 ^ 3, Suffix.single " GB"),
   (1024 ^ 2, Suffix.single " MB"),
   (1024 ^ 1, Suffix.single " KB"),
   (1024 ^ 0, Suffix.pair " byte" " bytes")]

/-- The `for factor, suffix in units: if f_bytes >= factor: break` loop
(lines 292-294): first unit whose factor is `≤ f_bytes`; if none matches the
loop leaves the last pair bound. -/
def selectUnit (b : Int) : List (Nat × Suffix) → Nat × Suffix
  | [] => (1, Suffix.pair " byte" " bytes")
  | [u] => u
  | u :: v :: rest => if (u.1 : Int) ≤ b then u else selectUnit b (v :: rest)

/-- The function `pretty_size` (lines 288-303). -/
def pretty_size (f_bytes : Int) (units : List (Nat × Suffix) := UNITS_MAPPING) : String :=
  let fs := selectUnit f_bytes units
  let amount := pyTruncDiv f_bytes fs.1
  match fs.2 with
  | Suffix.single suf => toString amount ++ suf
  | Suffix.pair sing mult => toString amount ++ (if amount = 1 then sing else mult)

/-- Written from the spec's words for claim C2 (spec section 4.2): select the
largest unit from byte/KB/MB/GB/TB/PB whose threshold is at most `b` (byte as
fallback), integer-divide with truncation, singular label exactly for the
byte unit with amount 1. -/
def prettySizeSpec (b : Nat) : String :=
  if 1024 ^ 5 ≤ b then toString (b / 1024 ^ 5) ++ " PB"
  else if 1024 ^ 4 ≤ b then toString (b / 1024 ^ 4) ++ " TB"
  else if 1024 ^ 3 ≤ b then toString (b / 1024 ^ 3) ++ " GB"
  else if 1024 ^ 2 ≤ b then toString (b / 1024 ^ 2) ++ " MB"
  else if 1024 ^ 1 ≤ b then toString (b / 1024 ^ 1) ++ " KB"
  else if b = 1 then toString b ++ " byte"
  else toString b ++ " bytes"

/-! ### Description resolution (indexer.py lines 238-244) -/

/-- Python truthiness of `HTACCESS_MAPPING.get(key)`: `None` and the empty
string are falsy. -/
def truthy : Option String → Bool
  | none => false
  | some s => !(s == "")

/-- Lines 238-244: try the `"<parentDir>/<name>"` key, then the bare name;
default `"&mdash;"`; finally `.lstrip('"').strip('"')`. -/
def resolve_description (ht : String → Option String) (k1 k2 : String) : String :=
  let d :=
    if truthy (ht k1) then (ht k1).getD ""
    else if truthy (ht k2) then (ht k2).getD ""
    else "&mdash;"
  pyStripQuote (pyLstripQuote d)

/-- Written from the spec's words for claim C5: lookup order qualified key
then bare key, first present non-empty value wins, em-dash when none, and all
leading and all trailing double quotes are stripped from the result
(the amended strip clause). -/
def specResolveDescription (ht : String → Option String) (parent name : String) : String :=
  match ht (parent ++ "/" ++ name) with
  | some v =>
    if v = "" then
      match ht name with
      | some w => if w = "" then pyStripQuote "&mdash;" else pyStripQuote w
      | none => pyStripQuote "&mdash;"
    else pyStripQuote v
  | none =>
    match ht name with
    | some w => if w = "" then pyStripQuote "&mdash;" else pyStripQuote w
    | none => pyStripQuote "&mdash;"

/-- Written from the claim's words for C5 (the part under test): strip exactly
one leading double quote and all trailing double quotes. -/
def claimStripOneLeading (s : String) : String :=
  let l := s.toList
  let l1 := if l.head? = some '"' then l.tail else l
  String.mk ((l1.reverse.dropWhile (fun c => c == '"')).reverse)

/-! ### Filesystem and state model for `process_dir` (lines 83-274)

The filesystem is a finite tree; each node carries the observations the
script makes about the entry (`is_file()`/`is_dir()` follow symlinks, as in
pathlib).  `os.access(..., W_OK)` is the `writable` field, and a failing
`entry.stat()` (the `except` at line 217) is `statOk = false`.  The
datetime formatting of st_mtime is kept abstract: the two formatted strings
are data of the node.  Opening the output file for writing may fail
(lines 96-100); which paths fail is the `openFails` oracle of the
configuration.  Writes to an opened file never fail in the model.

The HTML scaffolding written by `process_dir` is fixed text; the output file
is therefore modelled as a structured document holding exactly the
interpolated parts, in the order they are written: header fragment, svg
fragment, the up-row link target, the custom-index rows, the entry rows, the
footer fragment. -/

structure NodeInfo where
  isFile : Bool
  isDir : Bool
  isSymlink : Bool
  writable : Bool
  statOk : Bool
  size : Nat
  mtimeIso : String
  mtimeHuman : String
deriving DecidableEq

inductive FSNode where
  | node : NodeInfo → List (String × FSNode) → FSNode

def FSNode.info : FSNode → NodeInfo
  | .node i _ => i

def FSNode.children : FSNode → List (String × FSNode)
  | .node _ c => c

/-- One entry of `CUSTOM_INDEX`: a Python dict whose four keys may each be
absent (`dict.get` returns `None`). -/
structure CustomEntry where
  href : Option String
  icon : Option String
  name : Option String
  description : Option String
deriving DecidableEq

/-- The shared `CONTENT` dict (lines 67-80): template fragments plus the
`custom_index` list.  It is mutated in place by the SUBDIRS kludge
(lines 105-114), so it lives in the threaded state. -/
structure Content where
  header : String
  svg : String
  footer : String
  custom_index : List CustomEntry
deriving DecidableEq

/-- One rendered entry row (lines 246-260): the interpolated fields.
`hrefPath` is `entry_path` before percent-encoding (`quote` is injective on
these names and not modelled further). -/
structure Row where
  name : String
  entryType : String
  hrefPath : String
  description : String
  sizeOrder : Int
  sizePretty : String
  mtimeIso : String
  mtimeHuman : String
deriving DecidableEq

structure IndexDoc where
  header : String
  svg : String
  upLink : String
  customRows : List CustomEntry
  rows : List Row
  footer : String
deriving DecidableEq

/-- Traversal state: the shared mutable `content` dict, the files written so
far (path, document) in completion order, and the printed messages. -/
structure St where
  content : Content
  outputs : List (String × IndexDoc)
  log : List String
deriving DecidableEq

def addLog (st : St) (m : String) : St := { st with log := st.log ++ [m] }

/-- Configuration: the `opts` argument plus the module-level constants, and
the two environment oracles (glob matching and open failure). `verbose` only
gates prints and is omitted. -/
structure Cfg where
  output_file : String
  recursive : Bool
  globMatches : String → Bool
  topdir_up : Bool
  subdirs : List String
  subdir_replace : List (String × String)
  index_ignore : List String
  htaccess : String → Option String
  openFails : String → Bool

/-- The list `INDEX_IGNORE` (lines 37-41). -/
def INDEX_IGNORE : List String :=
  [".git", ".js", ".log", ".swp", "rescan", "rescan.txt",
   "LINKS", "CNAME", "README", "favicon.ico", "assets", "index.html", "robots.txt",
   "Gemfile", "Gemfile.lock", "404.html", "about.markdown", "index.markdown",
   "index.md", "scripts", "vendor"]

/-- The list `CUSTOM_INDEX` (lines 51-54). -/
def CUSTOM_INDEX : List CustomEntry :=
  [{ href := some "LINKS", icon := some "#folder-shortcut", name := some "LINKS",
     description := some "LINKS: other websites with scripts, repos and mirrors" }]

/-- The flag `TOPDIR_UP` (line 56). -/
def TOPDIR_UP : Bool := true

/-- The list `SUBDIRS` (line 59). -/
def SUBDIRS : List String := ["/ARCHIVE"]

/-- The list `SUBDIR_REPLACE` (lines 60-64). -/
def SUBDIR_REPLACE : List (String × String) :=
  [("=\"assets/", "=\"../assets/"),
   ("README.md", "../README.md"),
   ("favicon.ico", "../favicon.ico")]

def DEFAULT_OUTPUT_FILE : String := "index.html"

def joinPath (dir name : String) : String := dir ++ "/" ++ name

/-- The key built at line 240 from the last two path components: the immediate parent directory
name, a slash, and the entry name; just the entry name when the parent path
has no components. -/
def htKey1 (parentPath name : String) : String :=
  match (((splitSlash parentPath.toList).map String.mk).filter (fun c => c != "")).getLast? with
  | some d => d ++ "/" ++ name
  | none => name

/-! ### Sorting (line 175) -/

/-- Lexicographic comparison of char lists by Unicode code point: Python's
string `<=`. -/
def charListLe : List Char → List Char → Bool
  | [], _ => true
  | _ :: _, [] => false
  | a :: as, b :: bs =>
    if a.toNat < b.toNat then true
    else if b.toNat < a.toNat then false
    else charListLe as bs

/-- Python string comparison `a <= b`. -/
def strLe (a b : String) : Bool := charListLe a.toList b.toList

theorem charListLe_total : ∀ a b, charListLe a b = true ∨ charListLe b a = true
  | [], _ => Or.inl rfl
  | _ :: _, [] => Or.inr rfl
  | a :: as, b :: bs => by
    rcases Nat.lt_trichotomy a.toNat b.toNat with h | h | h
    · left; simp [charListLe, h]
    · have h1 : ¬ a.toNat < b.toNat := by omega
      have h2 : ¬ b.toNat < a.toNat := by omega
      rcases charListLe_total as bs with ih | ih
      · left; simp [charListLe, h1, h2, ih]
      · right; simp [charListLe, h1, h2, ih]
    · right; simp [charListLe, h]

theorem charListLe_trans :
    ∀ a b c, charListLe a b = true → charListLe b c = true → charListLe a c = true
  | [], _, _, _, _ => rfl
  | _ :: _, [], _, h1, _ => by simp [charListLe] at h1
  | _ :: _, _ :: _, [], _, h2 => by simp [charListLe] at h2
  | a :: as, b :: bs, c :: cs, h1, h2 => by
    by_cases hab : a.toNat < b.toNat
    · by_cases hbc : b.toNat < c.toNat
      · have h : a.toNat < c.toNat := Nat.lt_trans hab hbc
        simp [charListLe, h]
      · by_cases hcb : c.toNat < b.toNat
        · simp [charListLe, hbc, hcb] at h2
        · have h : a.toNat < c.toNat := by omega
          simp [charListLe, h]
    · by_cases hba : b.toNat < a.toNat
      · simp [charListLe, hab, hba] at h1
      · simp [charListLe, hab, hba] at h1
        by_cases hbc : b.toNat < c.toNat
        · have h : a.toNat < c.toNat := by omega
          simp [charListLe, h]
        · by_cases hcb : c.toNat < b.toNat
          · simp [charListLe, hbc, hcb] at h2
          · simp [charListLe, hbc, hcb] at h2
            have h3 : ¬ a.toNat < c.toNat := by omega
            have h4 : ¬ c.toNat < a.toNat := by omega
            simp [charListLe, h3, h4]
            exact charListLe_trans as bs cs h1 h2

/-- Python's sort key `(p.is_file(), p.name)`: `False < True`, so directories
(rank 0) come before files (rank 1). -/
def entryRank (e : String × FSNode) : Nat := if e.2.info.isFile then 1 else 0

/-- Lexicographic order on the sort key `(is_file, name)`. -/
def entryLe (a b : String × FSNode) : Prop :=
  entryRank a < entryRank b ∨ (entryRank a = entryRank b ∧ strLe a.1 b.1 = true)

instance : DecidableRel entryLe := fun a b =>
  inferInstanceAs (Decidable (_ ∨ _ ∧ _))

instance : IsTotal (String × FSNode) entryLe where
  total a b := by
    rcases Nat.lt_trichotomy (entryRank a) (entryRank b) with h | h | h
    · exact Or.inl (Or.inl h)
    · rcases charListLe_total a.1.toList b.1.toList with h2 | h2
      · exact Or.inl (Or.inr ⟨h, h2⟩)
      · exact Or.inr (Or.inr ⟨h.symm, h2⟩)
    · exact Or.inr (Or.inl h)

instance : IsTrans (String × FSNode) entryLe where
  trans a b c hab hbc := by
    rcases hab with h1 | ⟨h1, h1s⟩
    · rcases hbc with h2 | ⟨h2, _⟩
      · exact Or.inl (h1.trans h2)
      · exact Or.inl (h2 ▸ h1)
    · rcases hbc with h2 | ⟨h2, h2s⟩
      · exact Or.inl (h1 ▸ h2)
      · exact Or.inr ⟨h1.trans h2, charListLe_trans _ _ _ h1s h2s⟩

/-- The sort of line 175, key (is_file, name).  Python's
sort is stable and insertion sort is stable, so over this total preorder both
produce the same list. -/
def sortEntries (l : List (String × FSNode)) : List (String × FSNode) :=
  List.insertionSort entryLe l

/-! ### The traversal -/

/-- The skip tests of lines 181-188: the entry name equals the output file
name case-insensitively, or starts with a dot or an underscore, or contains
an `INDEX_IGNORE` string as a substring.  Both tests `continue` without any
other effect, so they are merged into one predicate. -/
def badName (cfg : Cfg) (s : String) : Bool :=
  pyLower s == pyLower cfg.output_file ||
  strStartsWith s "." || strStartsWith s "_" ||
  cfg.index_ignore.any (fun i => strContains s i)

/-- The body of the `for entry in sorted_entries` loop (lines 178-260).
`pd` is the recursive call (line 191), which runs before the writability
check (line 194).  The accumulator carries the threaded state and the rows
written so far for the current directory. -/
def entryStep (cfg : Cfg) (pd : String → FSNode → St → St) (parentPath : String)
    (acc : St × List Row) (e : String × FSNode) : St × List Row :=
  let (st, rows) := acc
  let name := e.1
  let info := e.2.info
  if badName cfg name then acc
  else
    let entryPath := joinPath parentPath name
    let st1 := if info.isDir && cfg.recursive then pd entryPath e.2 st else st
    if !info.isSymlink && !info.writable then
      (addLog st1 ("*** WARNING *** entry " ++ entryPath ++ " is not writable! SKIPPING!"),
       rows)
    else if (info.isFile || info.isDir) && !info.statOk then
      (addLog st1 ("ERROR accessing file name: " ++ entryPath), rows)
    else
      let sizeOrder : Int := if info.isFile then (info.size : Int) else -1
      let sizePretty := if info.isFile then pretty_size (info.size : Int) else "&mdash;"
      let mtimeIso := if info.isFile || info.isDir then info.mtimeIso else ""
      let mtimeHuman := if info.isFile || info.isDir then info.mtimeHuman else "-"
      let entryType :=
        if info.isDir && !info.isSymlink then "folder"
        else if info.isDir && info.isSymlink then "folder-shortcut"
        else if info.isFile && info.isSymlink then "file-shortcut"
        else "file"
      let st2 :=
        if info.isDir && info.isSymlink then addLog st1 ("dir-symlink " ++ entryPath)
        else if info.isFile && info.isSymlink then addLog st1 ("file-symlink " ++ entryPath)
        else st1
      let hrefPath := if info.isDir && !info.isSymlink then name ++ "/" else name
      let description := resolve_description cfg.htaccess (htKey1 parentPath name) name
      (st2, rows ++ [{ name := name, entryType := entryType, hrefPath := hrefPath,
                       description := description, sizeOrder := sizeOrder,
                       sizePretty := sizePretty, mtimeIso := mtimeIso,
                       mtimeHuman := mtimeHuman }])

/-- Lines 105-114: when the absolute path contains a `SUBDIRS` marker, apply
every `SUBDIR_REPLACE` pair to the shared header and prefix every truthy
custom-entry href with `../`, mutating the shared content dict in place. -/
def applySubdirRewrite (cfg : Cfg) (path : String) (st : St) : St :=
  if cfg.subdirs.any (fun i => strContains path i) then
    { st with content :=
        { st.content with
          header := cfg.subdir_replace.foldl
            (fun h p => pyReplace h p.1 p.2) st.content.header,
          custom_index := st.content.custom_index.map (fun i =>
            if (i.href.getD "") == "" then i
            else { i with href := some ("../" ++ i.href.getD "") }) } }
  else st

/-- Lines 102-114: `go_up` is `TOPDIR_UP` or the `SUBDIRS` marker test; the
call's position in the traversal plays no role. -/
def goUpFlag (cfg : Cfg) (path : String) : Bool :=
  cfg.topdir_up || cfg.subdirs.any (fun i => strContains path i)

/-- The traversal `process_dir` (lines 83-274).  `path` is the absolute path of the
directory, `nd` its filesystem node.  The fuel bounds the recursion depth
(the Python recursion is unbounded; every theorem uses enough fuel).  All
exceptions raised inside the function body are caught by the function itself
(open: lines 96-100, stat: lines 206-219), so the embedding is a total
function returning the threaded state: no failure ever propagates to the
caller. -/
def process_dir (cfg : Cfg) : Nat → String → FSNode → St → St
  | 0, _, _, st => st
  | fuel+1, path, nd, st =>
    let index_path := joinPath path cfg.output_file
    if cfg.openFails index_path then
      addLog st ("cannot create file " ++ index_path)
    else
      let st1 := applySubdirRewrite cfg path st
      let stepped := (sortEntries (nd.children.filter (fun e => cfg.globMatches e.1))).foldl
        (entryStep cfg (fun p n s => process_dir cfg fuel p n s) path) (st1, [])
      { stepped.1 with outputs := stepped.1.outputs ++
          [(index_path,
            { header := st1.content.header, svg := st1.content.svg,
              upLink := if goUpFlag cfg path then ".." else ".",
              customRows := st1.content.custom_index,
              rows := stepped.2,
              footer := stepped.1.content.footer })] }

/-- The entry loop of one `process_dir` call, starting from the rewritten
state: the threaded state after the loop and the rows of this directory. -/
def runEntries (cfg : Cfg) (fuel : Nat) (path : String) (nd : FSNode) (st1 : St) :
    St × List Row :=
  (sortEntries (nd.children.filter (fun e => cfg.globMatches e.1))).foldl
    (entryStep cfg (fun p n s => process_dir cfg fuel p n s) path) (st1, [])

/-- The document written by one successful `process_dir` call. -/
def mkDoc (cfg : Cfg) (path : String) (st1 : St) (stepped : St × List Row) : IndexDoc :=
  { header := st1.content.header, svg := st1.content.svg,
    upLink := if goUpFlag cfg path then ".." else ".",
    customRows := st1.content.custom_index,
    rows := stepped.2,
    footer := stepped.1.content.footer }

theorem process_dir_succ_eq (cfg : Cfg) (fuel : Nat) (path : String) (nd : FSNode)
    (st : St) (hopen : cfg.openFails (joinPath path cfg.output_file) = false) :
    process_dir cfg (fuel + 1) path nd st =
      { (runEntries cfg fuel path nd (applySubdirRewrite cfg path st)).1 with
        outputs :=
          (runEntries cfg fuel path nd (applySubdirRewrite cfg path st)).1.outputs ++
          [(joinPath path cfg.output_file,
            mkDoc cfg path (applySubdirRewrite cfg path st)
              (runEntries cfg fuel path nd (applySubdirRewrite cfg path st)))] } := by
  simp only [process_dir, hopen, Bool.false_eq_true, if_false, runEntries, mkDoc]

/-! ### Helper lemmas -/

theorem pyTruncDivNat_small (n d : Nat) (h : n < 2 ^ 53) : pyTruncDivNat n d = n / d := by
  unfold pyTruncDivNat
  rw [if_pos h]

theorem pyTruncDiv_ofNat (n d : Nat) (h : n < 2 ^ 53) :
    pyTruncDiv (n : Int) d = ((n / d : Nat) : Int) := by
  unfold pyTruncDiv
  rw [Int.natAbs_ofNat, pyTruncDivNat_small n d h]
  cases n with
  | zero => simp
  | succ m => simp [Int.sign]

theorem toString_intOfNat (n : Nat) : toString ((n : Nat) : Int) = toString n := rfl


/-! ### Claim C2 -/

/-- C2 counterexample: the claim asserts truncating division for every
non-negative byte count, but `pretty_size` divides with Python float
true-division; at `2 ^ 60 - 1` bytes the quotient by `1024 ^ 5` rounds up to
`1024.0`, so the code prints "1024 PB" where the claimed truncation yields
1023 (and the truncating spec rendering indeed gives "1023 PB"). -/
theorem pretty_size_rounds_up_at_large_input :
    pretty_size ((2 : Int) ^ 60 - 1) = "1024 PB" ∧
    prettySizeSpec (2 ^ 60 - 1) = "1023 PB" := by
  constructor
  · decide
  · decide

/-- C2 (amended): for every byte count below `2 ^ 53` — the range where
double division by the unit thresholds is exact — `pretty_size` selects the
largest unit whose threshold is at most the count (byte as fallback),
truncates the quotient, and uses the singular "byte" label exactly for a
byte-scale amount of 1; in particular the five example values of the claim
follow. -/
theorem pretty_size_truncates_below_float_threshold (b : Nat) (hb : b < 2 ^ 53) :
    pretty_size (b : Int) = prettySizeSpec b := by
  have key : ∀ d : Nat, pyTruncDiv (b : Int) d = ((b / d : Nat) : Int) :=
    fun d => pyTruncDiv_ofNat b d hb
  by_cases h5 : 1125899906842624 ≤ b
  · have h5i : (1125899906842624 : Int) ≤ (b : Int) := by exact_mod_cast h5
    simp [pretty_size, prettySizeSpec, UNITS_MAPPING, selectUnit, h5, h5i]
    rw [key, toString_intOfNat]
  · have h5i : ¬ (1125899906842624 : Int) ≤ (b : Int) := by exact_mod_cast h5
    by_cases h4 : 1099511627776 ≤ b
    · have h4i : (1099511627776 : Int) ≤ (b : Int) := by exact_mod_cast h4
      simp [pretty_size, prettySizeSpec, UNITS_MAPPING, selectUnit, h5, h5i, h4, h4i]
      rw [key, toString_intOfNat]
    · have h4i : ¬ (1099511627776 : Int) ≤ (b : Int) := by exact_mod_cast h4
      by_cases h3 : 1073741824 ≤ b
      · have h3i : (1073741824 : Int) ≤ (b : Int) := by exact_mod_cast h3
        simp [pretty_size, prettySizeSpec, UNITS_MAPPING, selectUnit, h5, h5i, h4, h4i, h3, h3i]
        rw [key, toString_intOfNat]
      · have h3i : ¬ (1073741824 : Int) ≤ (b : Int) := by exact_mod_cast h3
        by_cases h2 : 1048576 ≤ b
        · have h2i : (1048576 : Int) ≤ (b : Int) := by exact_mod_cast h2
          simp [pretty_size, prettySizeSpec, UNITS_MAPPING, selectUnit, h5, h5i, h4, h4i, h3, h3i,
            h2, h2i]
          rw [key, toString_intOfNat]
        · have h2i : ¬ (1048576 : Int) ≤ (b : Int) := by exact_mod_cast h2
          by_cases h1 : 1024 ≤ b
          · have h1i : (1024 : Int) ≤ (b : Int) := by exact_mod_cast h1
            simp [pretty_size, prettySizeSpec, UNITS_MAPPING, selectUnit, h5, h5i, h4, h4i, h3,
              h3i, h2, h2i, h1, h1i]
            rw [key, toString_intOfNat]
          · have h1i : ¬ (1024 : Int) ≤ (b : Int) := by exact_mod_cast h1
            simp [pretty_size, prettySizeSpec, UNITS_MAPPING, selectUnit, h5, h5i, h4, h4i, h3,
              h3i, h2, h2i, h1, h1i]
            rw [key]
            simp [Nat.div_one, toString_intOfNat, Nat.cast_eq_one]
            by_cases hb1 : b = 1 <;> simp [hb1]

/-- Witness for C2: the theorem applied at the claim's own example 1536,
whose hypothesis is discharged by computation; the spec side and the code
side both render "1 KB". -/
theorem pretty_size_truncates_below_float_threshold_witness :
    (1536 : Nat) < 2 ^ 53 ∧ pretty_size ((1536 : Nat) : Int) = prettySizeSpec 1536 ∧
    pretty_size (0 : Int) = "0 bytes" ∧ pretty_size (1 : Int) = "1 byte" ∧
    pretty_size (1023 : Int) = "1023 bytes" ∧ pretty_size (1024 : Int) = "1 KB" ∧
    pretty_size (1536 : Int) = "1 KB" :=
  ⟨by decide, pretty_size_truncates_below_float_threshold 1536 (by decide),
   by decide, by decide, by decide, by decide, by decide⟩

/-! ### Claim C10 -/

/-- C10 counterexample: for inputs below 1 the claim asserts the result is
the input itself followed by " bytes", but at `-(2 ^ 53 + 1)` the Python
float conversion rounds the value to `-(2 ^ 53)` before truncation, so the
rendered amount is not the input. -/
theorem pretty_size_huge_negative_echo_fails :
    pretty_size (-((2 : Int) ^ 53 + 1)) = "-9007199254740992 bytes" ∧
    toString (-((2 : Int) ^ 53 + 1)) = "-9007199254740993" := by
  constructor
  · decide
  · decide

/-- C10 (amended): for every integer input strictly below 1 whose magnitude
is below `2 ^ 53` (the float-exact range), no unit threshold matches, the
loop falls through to the byte unit, and the result is the input rendered as
is, followed by the plural " bytes". -/
theorem pretty_size_below_one_echoes_input (b : Int)
    (hlow : -(2 ^ 53) < b) (hup : b < 1) :
    pretty_size b = toString b ++ " bytes" := by
  have h5i : ¬ (1125899906842624 : Int) ≤ b := by omega
  have h4i : ¬ (1099511627776 : Int) ≤ b := by omega
  have h3i : ¬ (1073741824 : Int) ≤ b := by omega
  have h2i : ¬ (1048576 : Int) ≤ b := by omega
  have h1i : ¬ (1024 : Int) ≤ b := by omega
  have hdiv : pyTruncDiv b 1 = b := by
    unfold pyTruncDiv pyTruncDivNat
    have habs : b.natAbs < 2 ^ 53 := by omega
    rw [if_pos habs, Nat.div_one]
    exact_mod_cast Int.sign_mul_natAbs b
  have hne : b ≠ 1 := by omega
  simp [pretty_size, UNITS_MAPPING, selectUnit, h5i, h4i, h3i, h2i, h1i, hdiv, hne]

/-- Witness for C10: the theorem applied at input −1, both bounds discharged
by computation, giving "-1 bytes". -/
theorem pretty_size_below_one_echoes_input_witness :
    -((2 : Int) ^ 53) < -1 ∧ (-1 : Int) < 1 ∧
    pretty_size (-1 : Int) = toString (-1 : Int) ++ " bytes" :=
  ⟨by decide, by decide, pretty_size_below_one_echoes_input (-1) (by decide) (by decide)⟩

/-! ### Claim C5 -/

theorem dropWhile_self {α} (p : α → Bool) :
    ∀ l : List α, (l.dropWhile p).dropWhile p = l.dropWhile p
  | [] => rfl
  | a :: t => by
    by_cases h : p a
    · simp [List.dropWhile_cons, h, dropWhile_self p t]
    · simp [List.dropWhile_cons, h]

/-- Stripping with lstrip then strip removes exactly the same characters as
`.strip('"')` alone: all leading and all trailing double quotes. -/
theorem stripQuote_lstripQuote (s : String) :
    pyStripQuote (pyLstripQuote s) = pyStripQuote s := by
  unfold pyStripQuote pyLstripQuote
  show String.mk ((((s.toList.dropWhile fun c => c == '"').dropWhile
      fun c => c == '"').reverse.dropWhile fun c => c == '"').reverse) = _
  rw [dropWhile_self]

/-- C5 counterexample: for a mapped value with two leading double quotes,
stripping "exactly one leading" quote (the claim's wording) keeps one quote,
but the code strips them all: at value `""a"` the code resolves to `a`
while the claim's strip yields `"a`. -/
theorem resolve_description_strip_counterexample :
    resolve_description (fun k => if k == "d/x.txt" then some "\"\"a\"" else none)
      "d/x.txt" "x.txt" = "a" ∧
    claimStripOneLeading "\"\"a\"" = "\"a" ∧ "a" ≠ "\"a" := by
  refine ⟨by decide, by decide, by decide⟩

/-- C5 (amended): descriptions resolve by first trying the
`"<parentDir>/<name>"` key and then the bare name, the first present
non-empty value winning, with the em-dash placeholder when neither yields a
value; all leading and all trailing double quotes are stripped from the
result (the claim said "exactly one leading"). -/
theorem resolve_description_matches_spec (ht : String → Option String)
    (parent name : String) :
    resolve_description ht (parent ++ "/" ++ name) name =
      specResolveDescription ht parent name := by
  unfold resolve_description specResolveDescription
  rw [stripQuote_lstripQuote]
  cases h1 : ht (parent ++ "/" ++ name) with
  | none =>
    cases h2 : ht name with
    | none => simp [truthy, h1, h2]
    | some w =>
      by_cases hw : w = "" <;> simp [truthy, h1, h2, hw]
  | some v =>
    by_cases hv : v = ""
    · cases h2 : ht name with
      | none => simp [truthy, h1, h2, hv]
      | some w =>
        by_cases hw : w = "" <;> simp [truthy, h1, h2, hv, hw]
    · simp [truthy, h1, hv]

/-! ### Concrete fixtures used by the run-level theorems -/

/-- A plain writable directory entry. -/
def dirInfo : NodeInfo :=
  { isFile := false, isDir := true, isSymlink := false, writable := true,
    statOk := true, size := 0, mtimeIso := "", mtimeHuman := "" }

/-- A plain writable regular file of `n` bytes. -/
def fileInfo (n : Nat) : NodeInfo :=
  { isFile := true, isDir := false, isSymlink := false, writable := true,
    statOk := true, size := n, mtimeIso := "2023-06-19T00:00:00",
    mtimeHuman := "2023-06-19 00:00:00" }

/-- The configuration of a run with the module-level constants of
indexer.py, recursion enabled, no glob filter (`'*'` matches every name),
an empty htaccess mapping, and no open failures. -/
def baseCfg : Cfg :=
  { output_file := DEFAULT_OUTPUT_FILE, recursive := true,
    globMatches := fun _ => true, topdir_up := TOPDIR_UP, subdirs := SUBDIRS,
    subdir_replace := SUBDIR_REPLACE, index_ignore := INDEX_IGNORE,
    htaccess := fun _ => none, openFails := fun _ => false }

/-- A header fragment containing all three `SUBDIR_REPLACE` patterns. -/
def header0 : String := "a=\"assets/s\" b README.md c favicon.ico"

/-- Initial state of a run: the loaded `CONTENT` dict, no outputs, no log. -/
def st0 : St :=
  { content := { header := header0, svg := "", footer := "",
                 custom_index := CUSTOM_INDEX },
    outputs := [], log := [] }

/-! ### Claim C6 -/

/-- C6: the entry sort of line 175 orders directories before files and each
group by ascending case-sensitive code-point order on names (`sortEntries`
yields a permutation of its input that is sorted for `entryLe`, the
lexicographic order on the key `(is_file, name)`), and on the claim's example
directory containing files `b.txt`, `a.txt` and directory `Z` the rendered
rows appear in the order `Z`, `a.txt`, `b.txt`. -/
theorem rendered_rows_sorted_dirs_first :
    (∀ l : List (String × FSNode), List.Sorted entryLe (sortEntries l)) ∧
    (∀ l : List (String × FSNode), (sortEntries l).Perm l) ∧
    ((process_dir { baseCfg with recursive := false } 5 "/t"
        (.node dirInfo [("b.txt", .node (fileInfo 3) []),
                        ("a.txt", .node (fileInfo 4) []),
                        ("Z", .node dirInfo [])]) st0).outputs.lookup
        "/t/index.html").map (fun d => d.rows.map (fun r => r.name)) =
      some ["Z", "a.txt", "b.txt"] := by
  refine ⟨fun l => List.sorted_insertionSort entryLe l,
          fun l => List.perm_insertionSort entryLe l, by decide⟩

/-! ### Claim C1 -/

/-- C1: evaluation at the failing input.  In a recursive run over `/top`
with children `ARCHIVE` (whose absolute path contains the `SUBDIRS` marker
`/ARCHIVE`) and sibling `b`, the rewrite performed while rendering `ARCHIVE`
mutates the shared content dict: the sibling `b` is rendered with the
replaced header text and with the custom entry href already prefixed
(`../LINKS` instead of the configured `LINKS`), contradicting the claimed
isolation.  The top-level document, written before the mutation, still shows
the original header. -/
theorem subdir_rewrite_leaks_to_sibling :
    CUSTOM_INDEX.map (fun c => c.href) = [some "LINKS"] ∧
    ((process_dir baseCfg 5 "/top"
        (.node dirInfo [("ARCHIVE", .node dirInfo []), ("b", .node dirInfo [])])
        st0).outputs.lookup "/top/index.html").map (fun d => d.header) = some header0 ∧
    ((process_dir baseCfg 5 "/top"
        (.node dirInfo [("ARCHIVE", .node dirInfo []), ("b", .node dirInfo [])])
        st0).outputs.lookup "/top/b/index.html").map (fun d => d.header) =
      some "a=\"../assets/s\" b ../README.md c ../favicon.ico" ∧
    ((process_dir baseCfg 5 "/top"
        (.node dirInfo [("ARCHIVE", .node dirInfo []), ("b", .node dirInfo [])])
        st0).outputs.lookup "/top/b/index.html").map
        (fun d => d.customRows.map (fun c => c.href)) = some [some "../LINKS"] := by
  refine ⟨by decide, by decide, by decide, by decide⟩

/-! ### Claim C3 -/

/-- Configuration in which only the output file of directory `/t/a` cannot
be created. -/
def failACfg : Cfg := { baseCfg with openFails := fun p => p == "/t/a/index.html" }

/-- C3 counterexample: when opening the very first (top-level) output file
fails, `process_dir` prints the message and returns the state unchanged
otherwise — the run terminates normally with no output files; no failure is
propagated, contradicting the claim that the failure propagates as the
overall failure of the run. -/
theorem top_level_open_failure_returns_normally :
    process_dir { baseCfg with openFails := fun p => p == "/top/index.html" } 5 "/top"
      (.node dirInfo [("a", .node dirInfo [])]) st0 =
      { st0 with log := ["cannot create file /top/index.html"] } := by
  decide

/-- C3 (amended): failure to open the output file of any directory —
top-level included — only logs a message and aborts that directory's branch
(no rows, no recursion into its children, nothing else changed), and
already-scheduled sibling directories continue to be processed: in a
concrete run where `/t/a` cannot be opened, `/t/b` and `/t` still get their
index files and only the failure message is logged. -/
theorem open_failure_aborts_only_branch :
    (∀ (cfg : Cfg) (fuel : Nat) (path : String) (nd : FSNode) (st : St),
      cfg.openFails (joinPath path cfg.output_file) = true →
      process_dir cfg (fuel + 1) path nd st =
        addLog st ("cannot create file " ++ joinPath path cfg.output_file)) ∧
    (process_dir failACfg 5 "/t"
      (.node dirInfo [("a", .node dirInfo []), ("b", .node dirInfo [])]) st0).outputs.map
      Prod.fst = ["/t/b/index.html", "/t/index.html"] ∧
    (process_dir failACfg 5 "/t"
      (.node dirInfo [("a", .node dirInfo []), ("b", .node dirInfo [])]) st0).log =
      ["cannot create file /t/a/index.html"] := by
  refine ⟨fun cfg fuel path nd st h => by simp [process_dir, h], by decide, by decide⟩

/-- Configuration in which only `/x/index.html` cannot be created. -/
def failTopCfg : Cfg := { baseCfg with openFails := fun p => p == "/x/index.html" }

/-- Witness for C3: the general branch-abort equation applied to a concrete
failing configuration at directory `/x`. -/
theorem open_failure_aborts_only_branch_witness :
    failTopCfg.openFails (joinPath "/x" failTopCfg.output_file) = true ∧
    process_dir failTopCfg 1 "/x" (.node dirInfo []) st0 =
      addLog st0 ("cannot create file " ++ joinPath "/x" failTopCfg.output_file) :=
  ⟨by decide,
   open_failure_aborts_only_branch.1 failTopCfg 0 "/x" (.node dirInfo []) st0 (by decide)⟩

/-! ### Claim C4 -/

/-- C4: evaluation at the failing input.  `go_up` does not depend on whether
the call is top-level: with `TOPDIR_UP = False` and no `SUBDIRS` marker in
the path, the recursive call rendering `/t/sub` also emits the up-row link
target "." — the claim says every recursive call renders "..".  This
matches the source comment only for top-level directories (line 55 says the
flag should affect the top index alone). -/
theorem recursive_call_up_link_dot_when_flag_disabled :
    ((process_dir { baseCfg with topdir_up := false } 5 "/t"
        (.node dirInfo [("sub", .node dirInfo [])]) st0).outputs.lookup
        "/t/sub/index.html").map (fun d => d.upLink) = some "." ∧
    ("." : String) ≠ ".." := by
  refine ⟨by decide, by decide⟩

/-! ### Traversal lemmas for claims C7, C8 and C9 -/

theorem applySubdirRewrite_outputs (cfg : Cfg) (path : String) (st : St) :
    (applySubdirRewrite cfg path st).outputs = st.outputs := by
  unfold applySubdirRewrite; split_ifs <;> rfl

/-- The loop body leaves the outputs unchanged except through the recursive
call of line 191. -/
theorem entryStep_outputs (cfg : Cfg) (pd : String → FSNode → St → St) (path : String)
    (st : St) (rows : List Row) (e : String × FSNode) :
    (entryStep cfg pd path (st, rows) e).1.outputs = st.outputs ∨
    (entryStep cfg pd path (st, rows) e).1.outputs =
      (pd (joinPath path e.1) e.2 st).outputs := by
  unfold entryStep
  dsimp only
  split_ifs <;> simp [addLog]

/-- The loop body either emits no row or appends one row carrying the
entry's own name, and only for entries that pass the skip tests. -/
theorem entryStep_rows (cfg : Cfg) (pd : String → FSNode → St → St) (path : String)
    (st : St) (rows : List Row) (e : String × FSNode) :
    (entryStep cfg pd path (st, rows) e).2 = rows ∨
    (badName cfg e.1 = false ∧ ∃ row : Row, row.name = e.1 ∧
      (entryStep cfg pd path (st, rows) e).2 = rows ++ [row]) := by
  unfold entryStep
  dsimp only
  split_ifs with h1 <;>
    first
      | (left; rfl)
      | (right; exact ⟨by simpa using h1, ⟨_, rfl, rfl⟩⟩)

/-- For a non-ignored directory entry with recursion enabled, the loop body's
outputs are exactly those of the recursive call (the later writability and
stat branches only print). -/
theorem entryStep_outputs_of_recurse (cfg : Cfg) (pd : String → FSNode → St → St)
    (path : String) (st : St) (rows : List Row) (e : String × FSNode)
    (hbad : badName cfg e.1 = false) (hdr : (e.2.info.isDir && cfg.recursive) = true) :
    (entryStep cfg pd path (st, rows) e).1.outputs =
      (pd (joinPath path e.1) e.2 st).outputs := by
  unfold entryStep
  dsimp only
  rw [if_neg (by simp [hbad]), if_pos hdr]
  split_ifs <;> simp [addLog]

/-- A non-symlink unwritable entry is skipped at line 194: it contributes no
row. -/
theorem entryStep_rows_of_unwritable (cfg : Cfg) (pd : String → FSNode → St → St)
    (path : String) (st : St) (rows : List Row) (e : String × FSNode)
    (hsym : e.2.info.isSymlink = false) (hwr : e.2.info.writable = false) :
    (entryStep cfg pd path (st, rows) e).2 = rows := by
  unfold entryStep
  dsimp only
  split_ifs with h1 h2 <;> simp_all

theorem foldl_preserves_mem {α β : Type} (f : β → α → β) (I : β → Prop) :
    ∀ (l : List α), (∀ b a, a ∈ l → I b → I (f b a)) → ∀ b, I b → I (l.foldl f b)
  | [], _, _, h => h
  | a :: t, hstep, b, h =>
    foldl_preserves_mem f I t (fun b' a' ha' => hstep b' a' (List.mem_cons_of_mem a ha'))
      (f b a) (hstep b a (List.mem_cons_self a t) h)

/-- No row of the document violates the skip policy of lines 180-188. -/
def rowsOk (cfg : Cfg) (d : IndexDoc) : Bool :=
  d.rows.all (fun r => !(badName cfg r.name))

/-- Every written document satisfies `rowsOk`. -/
def outputsOk (cfg : Cfg) (st : St) : Bool :=
  st.outputs.all (fun kv => rowsOk cfg kv.2)

theorem process_dir_outputsOk (cfg : Cfg) :
    ∀ (fuel : Nat) (path : String) (nd : FSNode) (st : St),
      outputsOk cfg st = true → outputsOk cfg (process_dir cfg fuel path nd st) = true := by
  intro fuel
  induction fuel with
  | zero => intro path nd st h; simpa [process_dir] using h
  | succ f ih =>
    intro path nd st h
    by_cases hopen : cfg.openFails (joinPath path cfg.output_file) = true
    · have heq : process_dir cfg (f + 1) path nd st =
          addLog st ("cannot create file " ++ joinPath path cfg.output_file) := by
        simp [process_dir, hopen]
      rw [heq]
      unfold outputsOk at h ⊢
      simpa [addLog] using h
    · rw [Bool.not_eq_true] at hopen
      rw [process_dir_succ_eq cfg f path nd st hopen]
      have hstep : ∀ (b : St × List Row) (a : String × FSNode),
          a ∈ sortEntries (nd.children.filter (fun e => cfg.globMatches e.1)) →
          (outputsOk cfg b.1 = true ∧ b.2.all (fun r => !(badName cfg r.name)) = true) →
          (outputsOk cfg
              ((entryStep cfg (fun p n s => process_dir cfg f p n s) path) b a).1 = true ∧
           ((entryStep cfg (fun p n s => process_dir cfg f p n s) path) b a).2.all
             (fun r => !(badName cfg r.name)) = true) := by
        intro b a _ hI
        obtain ⟨st', rows'⟩ := b
        refine ⟨?_, ?_⟩
        · rcases entryStep_outputs cfg (fun p n s => process_dir cfg f p n s) path st' rows' a
            with heq | heq
          · unfold outputsOk at hI ⊢
            rw [heq]; exact hI.1
          · unfold outputsOk at hI ⊢
            rw [heq]
            have hh := ih (joinPath path a.1) a.2 st' (by unfold outputsOk; exact hI.1)
            unfold outputsOk at hh; exact hh
        · rcases entryStep_rows cfg (fun p n s => process_dir cfg f p n s) path st' rows' a
            with heq | ⟨hb, row, hname, heq⟩
          · rw [heq]; exact hI.2
          · rw [heq]; simp [List.all_append, hI.2, hname, hb]
      have hinit : outputsOk cfg (applySubdirRewrite cfg path st) = true ∧
          ([] : List Row).all (fun r => !(badName cfg r.name)) = true := by
        refine ⟨?_, rfl⟩
        unfold outputsOk at h ⊢
        rw [applySubdirRewrite_outputs]; exact h
      obtain ⟨hX1, hX2⟩ := foldl_preserves_mem
        (entryStep cfg (fun p n s => process_dir cfg f p n s) path)
        (fun acc => outputsOk cfg acc.1 = true ∧
          acc.2.all (fun r => !(badName cfg r.name)) = true)
        (sortEntries (nd.children.filter (fun e => cfg.globMatches e.1)))
        hstep (applySubdirRewrite cfg path st, []) hinit
      unfold outputsOk at hX1 ⊢
      rw [show ({ (runEntries cfg f path nd (applySubdirRewrite cfg path st)).1 with
          outputs := (runEntries cfg f path nd (applySubdirRewrite cfg path st)).1.outputs ++
            [(joinPath path cfg.output_file,
              mkDoc cfg path (applySubdirRewrite cfg path st)
                (runEntries cfg f path nd (applySubdirRewrite cfg path st)))] } : St).outputs =
          (runEntries cfg f path nd (applySubdirRewrite cfg path st)).1.outputs ++
            [(joinPath path cfg.output_file,
              mkDoc cfg path (applySubdirRewrite cfg path st)
                (runEntries cfg f path nd (applySubdirRewrite cfg path st)))] from rfl]
      rw [List.all_append]
      have hXX1 : ((runEntries cfg f path nd (applySubdirRewrite cfg path st)).1.outputs.all
          fun kv => rowsOk cfg kv.2) = true := hX1
      rw [hXX1]
      simp only [List.all_cons, List.all_nil, Bool.true_and, Bool.and_true, rowsOk, mkDoc]
      exact hX2

/-- The written files contain a document for key `k`. -/
def hasKey (k : String) (l : List (String × IndexDoc)) : Bool :=
  l.any (fun kv => kv.1 == k)

theorem hasKey_append (k : String) (l1 l2 : List (String × IndexDoc)) :
    hasKey k (l1 ++ l2) = (hasKey k l1 || hasKey k l2) := by
  simp [hasKey, List.any_append]

/-- The traversal never removes an already-written output file. -/
theorem process_dir_hasKey_mono (cfg : Cfg) (k : String) :
    ∀ (fuel : Nat) (path : String) (nd : FSNode) (st : St),
      hasKey k st.outputs = true →
      hasKey k (process_dir cfg fuel path nd st).outputs = true := by
  intro fuel
  induction fuel with
  | zero => intro path nd st h; simpa [process_dir] using h
  | succ f ih =>
    intro path nd st h
    by_cases hopen : cfg.openFails (joinPath path cfg.output_file) = true
    · have heq : process_dir cfg (f + 1) path nd st =
          addLog st ("cannot create file " ++ joinPath path cfg.output_file) := by
        simp [process_dir, hopen]
      rw [heq]; simpa [addLog] using h
    · rw [Bool.not_eq_true] at hopen
      rw [process_dir_succ_eq cfg f path nd st hopen]
      have hstep : ∀ (b : St × List Row) (a : String × FSNode),
          a ∈ sortEntries (nd.children.filter (fun e => cfg.globMatches e.1)) →
          hasKey k b.1.outputs = true →
          hasKey k ((entryStep cfg (fun p n s => process_dir cfg f p n s) path) b a).1.outputs
            = true := by
        intro b a _ hI
        obtain ⟨st', rows'⟩ := b
        rcases entryStep_outputs cfg (fun p n s => process_dir cfg f p n s) path st' rows' a
          with heq | heq
        · rw [heq]; exact hI
        · rw [heq]; exact ih (joinPath path a.1) a.2 st' hI
      have hinit : hasKey k ((applySubdirRewrite cfg path st, ([] : List Row))).1.outputs
          = true := by
        show hasKey k (applySubdirRewrite cfg path st).outputs = true
        rw [applySubdirRewrite_outputs]; exact h
      have hX := foldl_preserves_mem
        (entryStep cfg (fun p n s => process_dir cfg f p n s) path)
        (fun acc => hasKey k acc.1.outputs = true)
        (sortEntries (nd.children.filter (fun e => cfg.globMatches e.1)))
        hstep (applySubdirRewrite cfg path st, []) hinit
      have hXX : hasKey k (runEntries cfg f path nd (applySubdirRewrite cfg path st)).1.outputs
          = true := hX
      show hasKey k ((runEntries cfg f path nd (applySubdirRewrite cfg path st)).1.outputs ++ _)
        = true
      rw [hasKey_append, hXX]
      rfl

/-- Whenever its own output file can be opened, `process_dir` records it. -/
theorem process_dir_writes_self (cfg : Cfg) (fuel : Nat) (path : String) (nd : FSNode)
    (st : St) (hfuel : 1 ≤ fuel)
    (hopen : cfg.openFails (joinPath path cfg.output_file) = false) :
    hasKey (joinPath path cfg.output_file) (process_dir cfg fuel path nd st).outputs = true := by
  obtain ⟨f, rfl⟩ : ∃ f, fuel = f + 1 := ⟨fuel - 1, by omega⟩
  rw [process_dir_succ_eq cfg f path nd st hopen]
  show hasKey _ ((runEntries cfg f path nd (applySubdirRewrite cfg path st)).1.outputs ++ _)
    = true
  rw [hasKey_append]
  simp [hasKey]

/-- If processing one designated list element always records key `k`, the
whole entry loop records `k` whenever that element occurs in the list. -/
theorem foldl_entryStep_adds_key (cfg : Cfg) (f : Nat) (path k : String)
    (et : String × FSNode)
    (hAdd : ∀ acc : St × List Row,
      hasKey k ((entryStep cfg (fun p n s => process_dir cfg f p n s) path) acc et).1.outputs
        = true) :
    ∀ (l : List (String × FSNode)) (acc : St × List Row), et ∈ l →
      hasKey k
        ((l.foldl (entryStep cfg (fun p n s => process_dir cfg f p n s) path) acc)).1.outputs
        = true
  | [], _, hm => absurd hm (List.not_mem_nil et)
  | a :: t, acc, hm => by
    simp only [List.foldl_cons]
    rcases List.mem_cons.mp hm with rfl | hmt
    · refine foldl_preserves_mem _
        (fun b : St × List Row => hasKey k b.1.outputs = true) t ?_ _ (hAdd acc)
      intro b a' _ hI
      obtain ⟨st', rows'⟩ := b
      rcases entryStep_outputs cfg (fun p n s => process_dir cfg f p n s) path st' rows' a'
        with heq | heq
      · rw [heq]; exact hI
      · rw [heq]; exact process_dir_hasKey_mono cfg k f (joinPath path a'.1) a'.2 st' hI
    · exact foldl_entryStep_adds_key cfg f path k et hAdd t _ hmt

/-- If every list element named `nm` contributes no row, the entry loop
emits no row named `nm`. -/
theorem foldl_entryStep_no_row_named (cfg : Cfg) (f : Nat) (path nm : String)
    (l : List (String × FSNode))
    (hl : ∀ e ∈ l, e.1 = nm → ∀ acc : St × List Row,
      ((entryStep cfg (fun p n s => process_dir cfg f p n s) path) acc e).2 = acc.2) :
    ∀ acc : St × List Row,
      acc.2.all (fun r => !(r.name == nm)) = true →
      ((l.foldl (entryStep cfg (fun p n s => process_dir cfg f p n s) path) acc)).2.all
        (fun r => !(r.name == nm)) = true := by
  intro acc hacc
  refine foldl_preserves_mem _
    (fun b : St × List Row => b.2.all (fun r => !(r.name == nm)) = true) l ?_ acc hacc
  intro b a ha hI
  by_cases hn : a.1 = nm
  · rw [hl a ha hn b]; exact hI
  · obtain ⟨st', rows'⟩ := b
    rcases entryStep_rows cfg (fun p n s => process_dir cfg f p n s) path st' rows' a
      with heq | ⟨_, row, hname, heq⟩
    · rw [heq]; exact hI
    · rw [heq]
      simp only [List.all_append, List.all_cons, List.all_nil, Bool.and_eq_true]
      refine ⟨hI, ?_, trivial⟩
      simp [hname, hn]

/-! ### Claim C7 -/

/-- C7: in every run (any configuration, so any glob filter, and any
filesystem), no written document contains a row whose entry name
case-insensitively equals the configured output file name, starts with a dot
or an underscore, or contains a configured ignore-list string as a substring
(`badName` is exactly the skip test of lines 181-188, and `outputsOk`
demands that every row of every written document refutes it). -/
theorem no_ignored_entry_is_rendered (cfg : Cfg) (fuel : Nat) (path : String)
    (nd : FSNode) (c0 : Content) :
    outputsOk cfg (process_dir cfg fuel path nd
      { content := c0, outputs := [], log := [] }) = true :=
  process_dir_outputsOk cfg fuel path nd _ rfl

/-! ### Claim C8 -/

/-- C8: with recursion enabled, every glob-matching, non-ignored entry that
is a symbolic link resolving to a directory is itself recursed into: its own
index file is written (the `is_dir()` test of line 190 follows symlinks), as
long as the two affected output files can be opened and the recursion depth
suffices. -/
theorem symlinked_directories_are_recursed (cfg : Cfg) (fuel : Nat) (path : String)
    (nd : FSNode) (st : St) (name : String) (cnode : FSNode)
    (hrec : cfg.recursive = true)
    (hmem : (name, cnode) ∈ nd.children)
    (hglob : cfg.globMatches name = true)
    (hbad : badName cfg name = false)
    (hdir : cnode.info.isDir = true)
    (hsym : cnode.info.isSymlink = true)
    (hopen : cfg.openFails (joinPath path cfg.output_file) = false)
    (hopenc : cfg.openFails (joinPath (joinPath path name) cfg.output_file) = false)
    (hfuel : 2 ≤ fuel) :
    hasKey (joinPath (joinPath path name) cfg.output_file)
      (process_dir cfg fuel path nd st).outputs = true := by
  obtain ⟨f, rfl⟩ : ∃ f, fuel = f + 2 := ⟨fuel - 2, by omega⟩
  rw [process_dir_succ_eq cfg (f + 1) path nd st hopen]
  have hAdd : ∀ acc : St × List Row,
      hasKey (joinPath (joinPath path name) cfg.output_file)
        ((entryStep cfg (fun p n s => process_dir cfg (f + 1) p n s) path) acc
          (name, cnode)).1.outputs = true := by
    intro acc
    obtain ⟨st', rows'⟩ := acc
    rw [entryStep_outputs_of_recurse cfg (fun p n s => process_dir cfg (f + 1) p n s) path
      st' rows' (name, cnode) hbad (by simp [hdir, hrec])]
    exact process_dir_writes_self cfg (f + 1) (joinPath path name) cnode st' (by omega) hopenc
  have hmem2 : (name, cnode) ∈
      sortEntries (nd.children.filter (fun e => cfg.globMatches e.1)) := by
    rw [sortEntries, List.mem_insertionSort]
    exact List.mem_filter.mpr ⟨hmem, hglob⟩
  have hX := foldl_entryStep_adds_key cfg (f + 1) path
    (joinPath (joinPath path name) cfg.output_file) (name, cnode) hAdd
    (sortEntries (nd.children.filter (fun e => cfg.globMatches e.1)))
    (applySubdirRewrite cfg path st, []) hmem2
  have hXX : hasKey (joinPath (joinPath path name) cfg.output_file)
      (runEntries cfg (f + 1) path nd (applySubdirRewrite cfg path st)).1.outputs = true := hX
  show hasKey _
    ((runEntries cfg (f + 1) path nd (applySubdirRewrite cfg path st)).1.outputs ++ _) = true
  rw [hasKey_append, hXX]
  rfl

/-- A directory entry reached through a symbolic link. -/
def symDirInfo : NodeInfo := { dirInfo with isSymlink := true }

/-- Witness for C8: a run over `/t` whose only child `link` is a symlink to
a directory produces an index file inside the link target. -/
theorem symlinked_directories_are_recursed_witness :
    hasKey (joinPath (joinPath "/t" "link") baseCfg.output_file)
      (process_dir baseCfg 2 "/t" (.node dirInfo [("link", .node symDirInfo [])])
        st0).outputs = true :=
  symlinked_directories_are_recursed baseCfg 2 "/t"
    (.node dirInfo [("link", .node symDirInfo [])]) st0 "link" (.node symDirInfo [])
    (by decide) (List.Mem.head _) (by decide) (by decide) (by decide) (by decide)
    (by decide) (by decide) (by decide)

/-! ### Claim C9 -/

/-- C9: a non-symlink directory entry that is not writable is, with
recursion enabled, still recursed into — its index file is written,
because the recursive call of line 191 precedes the writability check of
line 194 — and yet the entry itself contributes no row to its parent's
listing (the parent's document is the last output written, and none of its
rows carries the entry's name; sibling names are distinct on a real
filesystem, which is the `Nodup` hypothesis). -/
theorem unwritable_directory_recursed_but_unlisted (cfg : Cfg) (fuel : Nat)
    (path : String) (nd : FSNode) (st : St) (name : String) (cnode : FSNode)
    (hrec : cfg.recursive = true)
    (hmem : (name, cnode) ∈ nd.children)
    (hglob : cfg.globMatches name = true)
    (hbad : badName cfg name = false)
    (hdir : cnode.info.isDir = true)
    (hsym : cnode.info.isSymlink = false)
    (hwr : cnode.info.writable = false)
    (hopen : cfg.openFails (joinPath path cfg.output_file) = false)
    (hopenc : cfg.openFails (joinPath (joinPath path name) cfg.output_file) = false)
    (hnodup : (nd.children.map Prod.fst).Nodup)
    (hfuel : 2 ≤ fuel) :
    hasKey (joinPath (joinPath path name) cfg.output_file)
      (process_dir cfg fuel path nd st).outputs = true ∧
    ∃ doc : IndexDoc,
      (process_dir cfg fuel path nd st).outputs.getLast? =
        some (joinPath path cfg.output_file, doc) ∧
      doc.rows.all (fun r => !(r.name == name)) = true := by
  obtain ⟨f, rfl⟩ : ∃ f, fuel = f + 2 := ⟨fuel - 2, by omega⟩
  rw [process_dir_succ_eq cfg (f + 1) path nd st hopen]
  constructor
  · have hAdd : ∀ acc : St × List Row,
        hasKey (joinPath (joinPath path name) cfg.output_file)
          ((entryStep cfg (fun p n s => process_dir cfg (f + 1) p n s) path) acc
            (name, cnode)).1.outputs = true := by
      intro acc
      obtain ⟨st', rows'⟩ := acc
      rw [entryStep_outputs_of_recurse cfg (fun p n s => process_dir cfg (f + 1) p n s) path
        st' rows' (name, cnode) hbad (by simp [hdir, hrec])]
      exact process_dir_writes_self cfg (f + 1) (joinPath path name) cnode st' (by omega) hopenc
    have hmem2 : (name, cnode) ∈
        sortEntries (nd.children.filter (fun e => cfg.globMatches e.1)) := by
      rw [sortEntries, List.mem_insertionSort]
      exact List.mem_filter.mpr ⟨hmem, hglob⟩
    have hX := foldl_entryStep_adds_key cfg (f + 1) path
      (joinPath (joinPath path name) cfg.output_file) (name, cnode) hAdd
      (sortEntries (nd.children.filter (fun e => cfg.globMatches e.1)))
      (applySubdirRewrite cfg path st, []) hmem2
    have hXX : hasKey (joinPath (joinPath path name) cfg.output_file)
        (runEntries cfg (f + 1) path nd (applySubdirRewrite cfg path st)).1.outputs
        = true := hX
    show hasKey _
      ((runEntries cfg (f + 1) path nd (applySubdirRewrite cfg path st)).1.outputs ++ _) = true
    rw [hasKey_append, hXX]
    rfl
  · refine ⟨mkDoc cfg path (applySubdirRewrite cfg path st)
      (runEntries cfg (f + 1) path nd (applySubdirRewrite cfg path st)), ?_, ?_⟩
    · show ((runEntries cfg (f + 1) path nd (applySubdirRewrite cfg path st)).1.outputs ++
        [(joinPath path cfg.output_file, _)]).getLast? = _
      rw [List.getLast?_concat]
    · show (mkDoc cfg path (applySubdirRewrite cfg path st)
        (runEntries cfg (f + 1) path nd (applySubdirRewrite cfg path st))).rows.all
          (fun r => !(r.name == name)) = true
      have hl : ∀ e ∈ sortEntries (nd.children.filter (fun e => cfg.globMatches e.1)),
          e.1 = name → ∀ acc : St × List Row,
          ((entryStep cfg (fun p n s => process_dir cfg (f + 1) p n s) path) acc e).2
            = acc.2 := by
        intro e he hn acc
        simp only [sortEntries, List.mem_insertionSort, List.mem_filter] at he
        have hec : e ∈ nd.children := he.1
        have hee : e = (name, cnode) :=
          List.inj_on_of_nodup_map hnodup hec hmem (by rw [hn])
        obtain ⟨st', rows'⟩ := acc
        rw [hee]
        exact entryStep_rows_of_unwritable cfg
          (fun p n s => process_dir cfg (f + 1) p n s) path st' rows' (name, cnode) hsym hwr
      exact foldl_entryStep_no_row_named cfg (f + 1) path name
        (sortEntries (nd.children.filter (fun e => cfg.globMatches e.1))) hl
        (applySubdirRewrite cfg path st, []) rfl

/-- A directory entry the process cannot write to. -/
def lockedDirInfo : NodeInfo := { dirInfo with writable := false }

/-- Witness for C9: a run over `/t` whose only child `locked` is an
unwritable directory still writes `/t/locked/index.html`, and the parent's
document lists no row named `locked`. -/
theorem unwritable_directory_recursed_but_unlisted_witness :
    hasKey (joinPath (joinPath "/t" "locked") baseCfg.output_file)
      (process_dir baseCfg 2 "/t" (.node dirInfo [("locked", .node lockedDirInfo [])])
        st0).outputs = true ∧
    ∃ doc : IndexDoc,
      (process_dir baseCfg 2 "/t" (.node dirInfo [("locked", .node lockedDirInfo [])])
        st0).outputs.getLast? = some (joinPath "/t" baseCfg.output_file, doc) ∧
      doc.rows.all (fun r => !(r.name == "locked")) = true :=
  unwritable_directory_recursed_but_unlisted baseCfg 2 "/t"
    (.node dirInfo [("locked", .node lockedDirInfo [])]) st0 "locked"
    (.node lockedDirInfo [])
    (by decide) (List.Mem.head _) (by decide) (by decide) (by decide) (by decide)
    (by decide) (by decide) (by decide) (by decide) (by decide)
